import Mathlib

/-!
Shallow embedding of the akashchat core (src/chat/models.py, src/chat/services.py,
src/chat/views.py): the message-versioning data model, conversation aggregate,
history projection and the completion gateway, together with theorems settling
the specification claims about them.

Modelling conventions:
* Django model rows become Lean structures; primary keys are `Nat` ids and
  foreign keys are `Option Nat` ids.
* A conversation's `messages` list is kept in chronological order
  (`Meta.ordering = ['created_at']`), so Django's ordered querysets become the
  list itself and `filter(...)` becomes `List.filter`.
* Python `raise` becomes `Except.error`; `timezone.now()` becomes an explicit
  `now : Nat` argument.
* The OpenAI client is an external collaborator: its completion outcome is an
  explicit `BackendOutcome` argument and the moderation endpoint is a function
  `String → Except String ModerationResult` (`Except.error` = the collaborator
  raised).
-/

/-- A row of the `Message` model (src/chat/models.py, class Message). -/
structure Message where
  id : Nat
  role : String
  content : String
  created_at : Nat
  edited : Bool
  edited_at : Option Nat
  previous_content : String
  superseded : Bool
  replaced_by : Option Nat
  parent_user_message : Option Nat
deriving Repr, DecidableEq

/-- A row of the `Conversation` model (src/chat/models.py, class Conversation),
with its owned messages inlined in chronological order. -/
structure Conversation where
  title : String
  updated_at : Nat
  messages : List Message
deriving Repr, DecidableEq

/-- `Conversation.get_active_messages`: all non-superseded messages in
chronological order (`self.messages.filter(superseded=False).order_by('created_at')`). -/
def get_active_messages (c : Conversation) : List Message :=
  c.messages.filter (fun m => !m.superseded)

/-- `Conversation.update_title_from_first_message`: if a first active user
message exists and the title is still the default placeholder, set the title to
the first 50 characters of that message's content, with "..." appended when the
content is longer than 50 characters. -/
def update_title_from_first_message (c : Conversation) : Conversation :=
  match c.messages.find? (fun m => m.role == "user" && !m.superseded) with
  | some first_message =>
      if c.title == "New Conversation" then
        let title := first_message.content.take 50
        let title := if first_message.content.length > 50 then title ++ "..." else title
        { c with title := title }
      else c
  | none => c

/-- `Message.edit_content`: raises unless the role is `user`; otherwise
snapshots the current content into `previous_content`, replaces the content,
sets `edited`, stamps `edited_at` and bumps the owning conversation's
`updated_at`. The result pairs the updated message with the updated
conversation; `Except.error` models the `ValueError` raised before any
mutation. -/
def edit_content (m : Message) (conv : Conversation) (new_content : String)
    (now : Nat) : Except String (Message × Conversation) :=
  if m.role ≠ "user" then
    Except.error "Only user messages can be edited"
  else
    Except.ok
      ({ m with
          previous_content := m.content
          content := new_content
          edited := true
          edited_at := some now },
        { conv with updated_at := now })

/-- `Message.supersede_with_new_reply`: raises unless the role is `assistant`;
otherwise marks the message superseded and points `replaced_by` at the new
reply's id. -/
def supersede_with_new_reply (m : Message) (new_reply_id : Nat) :
    Except String Message :=
  if m.role ≠ "assistant" then
    Except.error "Only assistant messages can be superseded"
  else
    Except.ok { m with superseded := true, replaced_by := some new_reply_id }

/-- Python's `list.index` on a list of Django model instances: first index whose
element compares equal, where Django model equality is primary-key equality.
`none` models the `ValueError` that `list.index` raises when absent. -/
def list_index (l : List Message) (m : Message) : Option Nat :=
  match l with
  | [] => none
  | x :: rest =>
      if x.id = m.id then some 0 else (list_index rest m).map (· + 1)

/-- `Message.get_conversation_history_for_api`: the active messages of the
owning conversation up to and including this message; the full active list when
the message is not found there. -/
def get_conversation_history_for_api (m : Message) (conv : Conversation) :
    List Message :=
  let message_list := get_active_messages conv
  match list_index message_list m with
  | some current_index => message_list.take (current_index + 1)
  | none => message_list

/-- `Message.to_openai_format`: role/content pair sent to the backend. -/
structure MsgDict where
  role : String
  content : String
deriving Repr, DecidableEq

/-- `Message.to_openai_format` (src/chat/models.py). -/
def to_openai_format (m : Message) : MsgDict :=
  { role := m.role, content := m.content }

/-- Result shape of `OpenAIService.check_moderation`. -/
structure ModerationResult where
  flagged : Bool
  categories : List String
deriving Repr, DecidableEq

/-- Outcome of the external chat-completion call in
`OpenAIService.generate_chat_completion`: either a successful response content,
or one of the exception kinds caught there. -/
inductive BackendOutcome where
  | success (content : String)
  | rateLimitError
  | authenticationError
  | apiError (detail : String)
  | unexpectedError (detail : String)
deriving Repr, DecidableEq

/-- `OpenAIService.check_moderation`: queries the external moderation
collaborator (`moderationApi text`); on success passes the flagged bit through
(categories only when flagged), and when the collaborator raises it logs and
returns `flagged = false` with empty categories. -/
def check_moderation (moderationApi : String → Except String ModerationResult)
    (text : String) : ModerationResult :=
  match moderationApi text with
  | Except.ok r =>
      { flagged := r.flagged
        categories := if r.flagged then r.categories else [] }
  | Except.error _ => { flagged := false, categories := [] }

/-- Fixed content string returned on a flagged user message. -/
def POLICY_VIOLATION_MSG : String :=
  "I'm sorry, but I can't respond to that message as it violates our usage policies. Please rephrase your message."

/-- Fixed content string returned on `openai.RateLimitError`. -/
def RATE_LIMIT_MSG : String :=
  "I'm currently experiencing high demand. Please try again in a moment."

/-- Fixed content string returned on `openai.AuthenticationError`. -/
def AUTH_ERROR_MSG : String :=
  "There's an issue with the AI service configuration. Please contact support."

/-- Fixed content string returned on `openai.APIError`. -/
def API_ERROR_MSG : String :=
  "I'm experiencing technical difficulties. Please try again later."

/-- Fixed content string returned on any other unexpected exception. -/
def UNEXPECTED_ERROR_MSG : String :=
  "An unexpected error occurred. Please try again."

/-- `OpenAIService.generate_chat_completion`: runs `check_moderation` over the
user-role entries in order and short-circuits with the fixed policy-violation
message at the first flagged one; otherwise performs the backend completion
call (its outcome is the `backend` argument) and maps each exception kind to
its fixed fallback string. It always returns a plain string. -/
def generate_chat_completion
    (moderationApi : String → Except String ModerationResult)
    (backend : BackendOutcome) (messages : List MsgDict) : String :=
  match messages.find?
      (fun m => m.role == "user" && (check_moderation moderationApi m.content).flagged) with
  | some _ => POLICY_VIOLATION_MSG
  | none =>
      match backend with
      | BackendOutcome.success content => content
      | BackendOutcome.rateLimitError => RATE_LIMIT_MSG
      | BackendOutcome.authenticationError => AUTH_ERROR_MSG
      | BackendOutcome.apiError _ => API_ERROR_MSG
      | BackendOutcome.unexpectedError _ => UNEXPECTED_ERROR_MSG

/-- `OpenAIService.estimate_tokens`: `len(text) // 4`. -/
def estimate_tokens (text : String) : Nat :=
  text.length / 4

/-- Loop body of `OpenAIService.trim_messages_by_token_limit`: walks the
reversed message list (most recent first) with the running token total,
prepending each message that still fits (`insert(0, message)`) and stopping at
the first one that would overflow (`break`). -/
def trim_go (max_tokens : Nat) : List MsgDict → Nat → List MsgDict
  | [], _ => []
  | message :: rest, total_tokens =>
      let message_tokens := estimate_tokens message.content
      if total_tokens + message_tokens ≤ max_tokens then
        trim_go max_tokens rest (total_tokens + message_tokens) ++ [message]
      else
        []

/-- `OpenAIService.trim_messages_by_token_limit`: keeps the most recent
messages whose estimated token sizes fit within `max_tokens`. -/
def trim_messages_by_token_limit (messages : List MsgDict) (max_tokens : Nat) :
    List MsgDict :=
  trim_go max_tokens messages.reverse 0

/-- Estimated token total of a message sequence. -/
def sum_tokens (l : List MsgDict) : Nat :=
  (l.map (fun m => estimate_tokens m.content)).sum

/-- The closed role set `Message.ROLE_CHOICES` (src/chat/models.py). -/
def ROLE_CHOICES : List String := ["user", "assistant", "system"]

/-- Python's `str.strip()`: removes leading and trailing whitespace. -/
def py_strip (s : String) : String :=
  ⟨((s.data.dropWhile Char.isWhitespace).reverse.dropWhile Char.isWhitespace).reverse⟩

/-- The message-creation path: `send_message` (src/chat/views.py) strips the
content and rejects it when empty, and the `Message` model declares the role
constrained to `ROLE_CHOICES` (Django model validation raises
`ValidationError` for a value outside the choices) with field defaults
`edited = False`, `superseded = False`. On success the new message carries the
stripped content, as `send_message` stores it. -/
def append (role content : String) (parent_user_message : Option Nat)
    (new_id now : Nat) : Except String Message :=
  let stripped := py_strip content
  if stripped = "" then
    Except.error "ValidationError: Message content cannot be empty"
  else if role ∉ ROLE_CHOICES then
    Except.error "ValidationError: role is not a valid choice"
  else
    Except.ok
      { id := new_id
        role := role
        content := stripped
        created_at := now
        edited := false
        edited_at := none
        previous_content := ""
        superseded := false
        replaced_by := none
        parent_user_message := parent_user_message }

/-- The active-assistant-reply filter used by `regenerate_reply`
(src/chat/views.py): `parent_user_message=user_message, role='assistant',
superseded=False`. -/
def active_reply_pred (user_message_id : Nat) (x : Message) : Bool :=
  x.parent_user_message == some user_message_id && x.role == "assistant"
    && !x.superseded

/-- The assistant `Message.objects.create(...)` row built by
`regenerate_reply` (src/chat/views.py): a fresh, non-superseded assistant
message carrying the AI response and linked to the triggering user message. -/
def new_assistant_message (user_message_id : Nat) (ai_response : String)
    (new_id now : Nat) : Message :=
  { id := new_id
    role := "assistant"
    content := ai_response
    created_at := now
    edited := false
    edited_at := none
    previous_content := ""
    superseded := false
    replaced_by := none
    parent_user_message := some user_message_id }

/-- Core state transition of `regenerate_reply` (src/chat/views.py), inside
`transaction.atomic()`: look up the current active assistant reply to the user
message (`filter(...).first()`, chronological order); if the AI response is
truthy (Python: a non-empty string), create the new assistant message linked to
the user message and, when a current reply exists, supersede it with the new
one. An exception inside the transaction (`supersede_with_new_reply` raising)
rolls everything back, as does a falsy AI response (no writes happen before the
error return). -/
def regenerate_reply (conv : Conversation) (user_message : Message)
    (ai_response : String) (new_id now : Nat) : Conversation :=
  let current_assistant_reply :=
    conv.messages.find? (active_reply_pred user_message.id)
  if ai_response = "" then conv
  else
    let msgs :=
      conv.messages ++ [new_assistant_message user_message.id ai_response new_id now]
    match current_assistant_reply with
    | none => { conv with messages := msgs }
    | some r =>
        match supersede_with_new_reply r new_id with
        | Except.ok r' =>
            { conv with
                messages := msgs.map (fun x => if x.id = r.id then r' else x) }
        | Except.error _ => conv

/-- The 74-character message of the title-truncation scenario
(src/chat/tests.py, test_update_title_from_first_message). -/
def LONG_TITLE_MSG : String :=
  "This is a very long message that should be truncated when used as title"

/-- Concrete fixture: a user message. -/
def sampleUser : Message :=
  ⟨1, "user", "Hello", 0, false, none, "", false, none, none⟩

/-- Concrete fixture: the assistant reply linked to `sampleUser`. -/
def sampleReply : Message :=
  ⟨2, "assistant", "Hi there!", 1, false, none, "", false, none, some 1⟩

/-- Concrete fixture: a conversation holding `sampleUser` and `sampleReply`. -/
def sampleConv : Conversation :=
  ⟨"Test Conversation", 0, [sampleUser, sampleReply]⟩

/-- Concrete fixture: the 74-character message as first user message. -/
def titleMsg : Message :=
  ⟨1, "user", LONG_TITLE_MSG, 0, false, none, "", false, none, none⟩

/-- Concrete fixture: a placeholder-titled conversation holding `titleMsg`. -/
def titleConv : Conversation :=
  ⟨"New Conversation", 0, [titleMsg]⟩

/-- Concrete fixture: a placeholder-titled conversation whose first user
message is 5 characters long. -/
def shortTitleConv : Conversation :=
  ⟨"New Conversation", 0, [sampleUser]⟩

/-- Concrete fixture: a two-entry history for the budget-trim witness
(estimated sizes 2 and 1). -/
def trimEx : List MsgDict :=
  [⟨"user", "aaaaaaaa"⟩, ⟨"assistant", "bbbb"⟩]

/-- C10: for a message whose role is not `user`, `edit_content` raises before
performing any mutation: it returns the `ValueError` and produces no updated
message/conversation pair, so every field of the message and of the owning
conversation is exactly as it was before the call. -/
theorem edit_content_non_user_error (m : Message) (conv : Conversation)
    (new_content : String) (now : Nat) (hrole : m.role ≠ "user") :
    edit_content m conv new_content now =
      Except.error "Only user messages can be edited" ∧
    ∀ p : Message × Conversation,
      edit_content m conv new_content now ≠ Except.ok p := by
  constructor
  · simp [edit_content, hrole]
  · intro p
    simp [edit_content, hrole]

/-- Witness for C10 at a concrete assistant message. -/
theorem edit_content_non_user_error_witness :
    sampleReply.role ≠ "user" ∧
    (edit_content sampleReply sampleConv "changed" 5 =
        Except.error "Only user messages can be edited" ∧
      ∀ p : Message × Conversation,
        edit_content sampleReply sampleConv "changed" 5 ≠ Except.ok p) :=
  ⟨by decide, edit_content_non_user_error sampleReply sampleConv "changed" 5 (by decide)⟩

/-- C4: editing a user message twice leaves `previous_content` equal to the
first replacement content, `content` equal to the second, and `edited = true`;
the original content is no longer retained in either content-bearing field —
only one level of undo is kept. -/
theorem edit_twice_previous_content (m : Message) (conv : Conversation)
    (c1 c2 : String) (t1 t2 : Nat) (hrole : m.role = "user") :
    ∃ m1 conv1 m2 conv2,
      edit_content m conv c1 t1 = Except.ok (m1, conv1) ∧
      edit_content m1 conv1 c2 t2 = Except.ok (m2, conv2) ∧
      m2.previous_content = c1 ∧ m2.content = c2 ∧ m2.edited = true ∧
      (m.content ≠ c1 → m.content ≠ c2 →
        m2.content ≠ m.content ∧ m2.previous_content ≠ m.content) := by
  refine ⟨{ m with
      previous_content := m.content
      content := c1
      edited := true
      edited_at := some t1 },
    { conv with updated_at := t1 },
    { m with
      previous_content := c1
      content := c2
      edited := true
      edited_at := some t2 },
    { conv with updated_at := t2 }, ?_, ?_, ?_, ?_, ?_, ?_⟩
  · simp [edit_content, hrole]
  · simp [edit_content, hrole]
  · rfl
  · rfl
  · rfl
  · intro h1 h2
    exact ⟨fun h => h2 h.symm, fun h => h1 h.symm⟩

/-- Witness for C4 at a concrete user message and two edits. -/
theorem edit_twice_previous_content_witness :
    sampleUser.role = "user" ∧
    ∃ m1 conv1 m2 conv2,
      edit_content sampleUser sampleConv "first" 3 = Except.ok (m1, conv1) ∧
      edit_content m1 conv1 "second" 4 = Except.ok (m2, conv2) ∧
      m2.previous_content = "first" ∧ m2.content = "second" ∧ m2.edited = true ∧
      (sampleUser.content ≠ "first" → sampleUser.content ≠ "second" →
        m2.content ≠ sampleUser.content ∧ m2.previous_content ≠ sampleUser.content) :=
  ⟨by decide,
    edit_twice_previous_content sampleUser sampleConv "first" "second" 3 4 (by decide)⟩

/-- C9: when the external moderation collaborator raises, `check_moderation`
returns `flagged = false` instead of propagating the failure, and the
completion flow proceeds to the backend call: with an always-failing moderation
collaborator, `generate_chat_completion` returns the backend's response rather
than rejecting the message. -/
theorem check_moderation_fails_open (err : String) (content : String)
    (messages : List MsgDict) :
    check_moderation (fun _ => Except.error err) content =
      { flagged := false, categories := [] } ∧
    ∀ response : String,
      generate_chat_completion (fun _ => Except.error err)
        (BackendOutcome.success response) messages = response := by
  constructor
  · rfl
  · intro response
    have hnone : messages.find?
        (fun m => m.role == "user" &&
          (check_moderation (fun _ => Except.error err) m.content).flagged) = none := by
      rw [List.find?_eq_none]
      intro x _
      simp [check_moderation]
    simp [generate_chat_completion, hnone]

/-- C5: `generate_chat_completion` never raises: each backend failure kind is
mapped to its fixed fallback content string (rate limit, authentication,
API error, unexpected error), and for every backend outcome the caller
receives a plain string. -/
theorem generate_chat_completion_failure_fallbacks
    (moderationApi : String → Except String ModerationResult)
    (messages : List MsgDict)
    (hclear : ∀ m ∈ messages, m.role = "user" →
      (check_moderation moderationApi m.content).flagged = false) :
    generate_chat_completion moderationApi BackendOutcome.rateLimitError messages
      = RATE_LIMIT_MSG ∧
    generate_chat_completion moderationApi BackendOutcome.authenticationError messages
      = AUTH_ERROR_MSG ∧
    (∀ d, generate_chat_completion moderationApi (BackendOutcome.apiError d) messages
      = API_ERROR_MSG) ∧
    (∀ d, generate_chat_completion moderationApi (BackendOutcome.unexpectedError d) messages
      = UNEXPECTED_ERROR_MSG) ∧
    (∀ b : BackendOutcome, ∃ s : String,
      generate_chat_completion moderationApi b messages = s) := by
  have hnone : messages.find?
      (fun m => m.role == "user" &&
        (check_moderation moderationApi m.content).flagged) = none := by
    rw [List.find?_eq_none]
    intro x hx
    simp only [Bool.and_eq_true, beq_iff_eq, not_and]
    intro hrole
    simp [hclear x hx hrole]
  refine ⟨?_, ?_, ?_, ?_, ?_⟩
  · simp [generate_chat_completion, hnone]
  · simp [generate_chat_completion, hnone]
  · intro d; simp [generate_chat_completion, hnone]
  · intro d; simp [generate_chat_completion, hnone]
  · intro b; exact ⟨_, rfl⟩

/-- Witness for C5 at a concrete clean history. -/
theorem generate_chat_completion_failure_fallbacks_witness :
    (∀ m ∈ trimEx, m.role = "user" →
      (check_moderation (fun _ => Except.ok ⟨false, []⟩) m.content).flagged = false) ∧
    (generate_chat_completion (fun _ => Except.ok ⟨false, []⟩)
        BackendOutcome.rateLimitError trimEx = RATE_LIMIT_MSG ∧
      generate_chat_completion (fun _ => Except.ok ⟨false, []⟩)
        BackendOutcome.authenticationError trimEx = AUTH_ERROR_MSG ∧
      (∀ d, generate_chat_completion (fun _ => Except.ok ⟨false, []⟩)
        (BackendOutcome.apiError d) trimEx = API_ERROR_MSG) ∧
      (∀ d, generate_chat_completion (fun _ => Except.ok ⟨false, []⟩)
        (BackendOutcome.unexpectedError d) trimEx = UNEXPECTED_ERROR_MSG) ∧
      (∀ b : BackendOutcome, ∃ s : String,
        generate_chat_completion (fun _ => Except.ok ⟨false, []⟩) b trimEx = s)) :=
  ⟨by decide,
    generate_chat_completion_failure_fallbacks (fun _ => Except.ok ⟨false, []⟩)
      trimEx (by decide)⟩

/-- C7 counterexample: the scenario message "This is a very long message that
should be truncated when used as title" has 71 characters, not 74 as the claim
states. -/
theorem long_title_msg_length_not_74 :
    LONG_TITLE_MSG.length = 71 ∧ ¬ LONG_TITLE_MSG.length = 74 := by
  decide

/-- C7 (amended: the scenario message has 71 characters, not 74): appending it
to a placeholder-titled conversation and running
`update_title_from_first_message` yields a title equal to its first 50
characters followed by "...", of exactly 53 characters and ending in the
ellipsis marker; and for any first active user message of at most 50
characters the title becomes that content unchanged. -/
theorem update_title_truncation :
    LONG_TITLE_MSG.length = 71 ∧
    (update_title_from_first_message titleConv).title =
      LONG_TITLE_MSG.take 50 ++ "..." ∧
    (update_title_from_first_message titleConv).title.length = 53 ∧
    (∃ t : String,
      (update_title_from_first_message titleConv).title = t ++ "...") ∧
    (∀ (c : Conversation) (m : Message),
      c.messages.find? (fun x => x.role == "user" && !x.superseded) = some m →
      c.title = "New Conversation" → m.content.length ≤ 50 →
      (update_title_from_first_message c).title = m.content) := by
  refine ⟨by decide, ?_, ?_, ?_, ?_⟩
  · set_option maxRecDepth 8000 in decide
  · set_option maxRecDepth 8000 in decide
  · exact ⟨LONG_TITLE_MSG.take 50, by set_option maxRecDepth 8000 in decide⟩
  · intro c m hf ht hlen
    have hgt : ¬ m.content.length > 50 := by omega
    simp only [update_title_from_first_message, hf, ht, beq_self_eq_true,
      if_true, if_neg hgt]
    rw [String.take_eq, List.take_of_length_le hlen]

/-- Witness for C7's general clause at a concrete short first message. -/
theorem update_title_truncation_witness :
    shortTitleConv.messages.find?
      (fun x => x.role == "user" && !x.superseded) = some sampleUser ∧
    shortTitleConv.title = "New Conversation" ∧
    sampleUser.content.length ≤ 50 ∧
    (update_title_from_first_message shortTitleConv).title = sampleUser.content :=
  ⟨by decide, by decide, by decide,
    update_title_truncation.2.2.2.2 shortTitleConv sampleUser
      (by decide) (by decide) (by decide)⟩

/-- C8: `update_title_from_first_message` is idempotent and conditional: it is
a no-op whenever the title differs from the default placeholder or no active
user message exists, and running it twice never changes anything beyond the
first run. -/
theorem update_title_idempotent (c : Conversation) :
    update_title_from_first_message (update_title_from_first_message c) =
      update_title_from_first_message c ∧
    (c.title ≠ "New Conversation" → update_title_from_first_message c = c) ∧
    (c.messages.find? (fun m => m.role == "user" && !m.superseded) = none →
      update_title_from_first_message c = c) := by
  refine ⟨?_, ?_, ?_⟩
  · cases hf : c.messages.find? (fun m => m.role == "user" && !m.superseded) with
    | none => simp [update_title_from_first_message, hf]
    | some fm =>
        by_cases ht : c.title = "New Conversation"
        · have h1 : update_title_from_first_message c =
              { c with title := (if fm.content.length > 50
                then fm.content.take 50 ++ "..." else fm.content.take 50) } := by
            simp only [update_title_from_first_message, hf, ht, beq_self_eq_true,
              if_true]
          rw [h1]
          by_cases hT : (if fm.content.length > 50
              then fm.content.take 50 ++ "..." else fm.content.take 50) = "New Conversation"
          · simp only [update_title_from_first_message, hf, hT, beq_self_eq_true,
              if_true]
          · have hne : ((if fm.content.length > 50
                then fm.content.take 50 ++ "..." else fm.content.take 50)
                  == "New Conversation") = false := by
              simpa using hT
            simp only [update_title_from_first_message, hf, hne,
              Bool.false_eq_true, if_false]
        · have hne : (c.title == "New Conversation") = false := by
            simpa using ht
          simp [update_title_from_first_message, hf, hne]
  · intro ht
    have hne : (c.title == "New Conversation") = false := by simpa using ht
    cases hf : c.messages.find? (fun m => m.role == "user" && !m.superseded) with
    | none => simp [update_title_from_first_message, hf]
    | some fm => simp [update_title_from_first_message, hf, hne]
  · intro hf
    simp [update_title_from_first_message, hf]

/-- Witness for C8 at a concrete already-customized conversation. -/
theorem update_title_idempotent_witness :
    (update_title_from_first_message (update_title_from_first_message sampleConv) =
      update_title_from_first_message sampleConv) ∧
    sampleConv.title ≠ "New Conversation" ∧
    update_title_from_first_message sampleConv = sampleConv :=
  ⟨(update_title_idempotent sampleConv).1, by decide,
    (update_title_idempotent sampleConv).2.1 (by decide)⟩

/-- C6: message creation fails with a `ValidationError` when the content is
empty after trimming whitespace or the role is outside the closed set
{user, assistant, system}; on success the created message has `edited = false`
and `superseded = false`. -/
theorem append_validation (role content : String) (parent : Option Nat)
    (new_id now : Nat) :
    (py_strip content = "" →
      append role content parent new_id now =
        Except.error "ValidationError: Message content cannot be empty") ∧
    (py_strip content ≠ "" → role ∉ ROLE_CHOICES →
      append role content parent new_id now =
        Except.error "ValidationError: role is not a valid choice") ∧
    (py_strip content ≠ "" → role ∈ ROLE_CHOICES →
      ∃ msg : Message, append role content parent new_id now = Except.ok msg ∧
        msg.edited = false ∧ msg.superseded = false ∧ msg.role = role) := by
  refine ⟨?_, ?_, ?_⟩
  · intro h
    simp [append, h]
  · intro h hrole
    simp [append, h, hrole]
  · intro h hrole
    refine ⟨⟨new_id, role, py_strip content, now, false, none, "", false, none, parent⟩,
      ?_, rfl, rfl, rfl⟩
    simp [append, h, hrole]

/-- Witness for C6: empty-content rejection, invalid-role rejection, and a
successful creation with default flags, at concrete inputs. -/
theorem append_validation_witness :
    (py_strip "   " = "" ∧
      append "user" "   " none 7 0 =
        Except.error "ValidationError: Message content cannot be empty") ∧
    (py_strip "hi" ≠ "" ∧ "wizard" ∉ ROLE_CHOICES ∧
      append "wizard" "hi" none 7 0 =
        Except.error "ValidationError: role is not a valid choice") ∧
    (py_strip "hi" ≠ "" ∧ "user" ∈ ROLE_CHOICES ∧
      ∃ msg : Message, append "user" "hi" none 7 0 = Except.ok msg ∧
        msg.edited = false ∧ msg.superseded = false ∧ msg.role = "user") :=
  ⟨⟨by decide, (append_validation "user" "   " none 7 0).1 (by decide)⟩,
    ⟨by decide, by decide,
      (append_validation "wizard" "hi" none 7 0).2.1 (by decide) (by decide)⟩,
    ⟨by decide, by decide,
      (append_validation "user" "hi" none 7 0).2.2 (by decide) (by decide)⟩⟩

/-- `sum_tokens` distributes over append. -/
theorem sum_tokens_append (a b : List MsgDict) :
    sum_tokens (a ++ b) = sum_tokens a + sum_tokens b := by
  simp [sum_tokens]

/-- `sum_tokens` of a single entry is that entry's estimated size. -/
theorem sum_tokens_singleton (m : MsgDict) :
    sum_tokens [m] = estimate_tokens m.content := by
  simp [sum_tokens]

/-- Greedy reverse-scan invariant of `trim_go`: the result is the reverse of a
front segment of the reversed input, and it either fits the remaining budget or
is empty. -/
theorem trim_go_spec (max_tokens : Nat) :
    ∀ (rev : List MsgDict) (total : Nat),
      ∃ n, trim_go max_tokens rev total = (rev.take n).reverse ∧
        (total + sum_tokens (trim_go max_tokens rev total) ≤ max_tokens ∨
          trim_go max_tokens rev total = []) := by
  intro rev
  induction rev with
  | nil => intro total; exact ⟨0, rfl, Or.inr rfl⟩
  | cons m rest ih =>
      intro total
      by_cases h : total + estimate_tokens m.content ≤ max_tokens
      · obtain ⟨n, hn, hbud⟩ := ih (total + estimate_tokens m.content)
        have hgo : trim_go max_tokens (m :: rest) total =
            trim_go max_tokens rest (total + estimate_tokens m.content) ++ [m] := by
          simp [trim_go, h]
        refine ⟨n + 1, ?_, ?_⟩
        · rw [hgo, hn, List.take_succ_cons, List.reverse_cons]
        · left
          rw [hgo, sum_tokens_append, sum_tokens_singleton]
          rcases hbud with hb | hb
          · omega
          · rw [hb, sum_tokens]
            simp only [List.map_nil, List.sum_nil]
            omega
      · have hgo : trim_go max_tokens (m :: rest) total = [] := by
          simp [trim_go, h]
        exact ⟨0, by rw [hgo]; rfl, Or.inr hgo⟩

/-- C2: `trim_messages_by_token_limit` scans from the most recent entry
backward with sizes `len(content) / 4`; the result is a contiguous suffix of
the input in chronological order, its total estimated size never exceeds the
budget, and when even the single most recent entry exceeds the budget the
result is the empty sequence rather than an error. -/
theorem trim_messages_spec (messages : List MsgDict) (max_tokens : Nat) :
    (∃ dropped : List MsgDict,
      messages = dropped ++ trim_messages_by_token_limit messages max_tokens) ∧
    sum_tokens (trim_messages_by_token_limit messages max_tokens) ≤ max_tokens ∧
    (∀ (older : List MsgDict) (newest : MsgDict),
      messages = older ++ [newest] →
      max_tokens < estimate_tokens newest.content →
      trim_messages_by_token_limit messages max_tokens = []) := by
  have htm : trim_messages_by_token_limit messages max_tokens =
      trim_go max_tokens messages.reverse 0 := rfl
  obtain ⟨n, hn, hbud⟩ := trim_go_spec max_tokens messages.reverse 0
  refine ⟨⟨(messages.reverse.drop n).reverse, ?_⟩, ?_, ?_⟩
  · rw [htm, hn]
    conv_lhs => rw [← List.reverse_reverse messages,
      ← List.take_append_drop n messages.reverse, List.reverse_append]
  · rw [htm]
    rcases hbud with hb | hb
    · omega
    · rw [hb, sum_tokens]
      simp
  · intro older newest hmsg hover
    have hrev : messages.reverse = newest :: older.reverse := by
      rw [hmsg]; simp
    have hnot : ¬ (0 + estimate_tokens newest.content ≤ max_tokens) := by omega
    rw [htm, hrev]
    simp [trim_go, hnot, hover]

/-- Witness for C2: suffix and budget at budget 2, and the overflow-to-empty
clause at budget 0, on a concrete two-entry history. -/
theorem trim_messages_spec_witness :
    ((∃ dropped : List MsgDict,
        trimEx = dropped ++ trim_messages_by_token_limit trimEx 2) ∧
      sum_tokens (trim_messages_by_token_limit trimEx 2) ≤ 2) ∧
    (trimEx = [⟨"user", "aaaaaaaa"⟩] ++ [⟨"assistant", "bbbb"⟩] ∧
      0 < estimate_tokens (MsgDict.mk "assistant" "bbbb").content ∧
      trim_messages_by_token_limit trimEx 0 = []) :=
  ⟨⟨(trim_messages_spec trimEx 2).1, (trim_messages_spec trimEx 2).2.1⟩,
    by decide, by decide,
    (trim_messages_spec trimEx 0).2.2 [⟨"user", "aaaaaaaa"⟩]
      ⟨"assistant", "bbbb"⟩ (by decide) (by decide)⟩

/-- In a message list with pairwise-distinct ids, an element is determined by
its id. -/
theorem id_unique_of_nodup :
    ∀ l : List Message, (l.map Message.id).Nodup →
      ∀ R ∈ l, ∀ x ∈ l, x.id = R.id → x = R := by
  intro l
  induction l with
  | nil => intro _ R hR; exact absurd hR (List.not_mem_nil R)
  | cons a rest ih =>
      intro hnd R hR x hx hid
      rw [List.map_cons, List.nodup_cons] at hnd
      obtain ⟨ha, hrest⟩ := hnd
      rcases List.mem_cons.mp hR with rfl | hR'
      · rcases List.mem_cons.mp hx with rfl | hx'
        · rfl
        · have hmem : x.id ∈ rest.map Message.id :=
            List.mem_map_of_mem Message.id hx'
          rw [hid] at hmem
          exact absurd hmem ha
      · rcases List.mem_cons.mp hx with rfl | hx'
        · have hmem : R.id ∈ rest.map Message.id :=
            List.mem_map_of_mem Message.id hR'
          rw [← hid] at hmem
          exact absurd hmem ha
        · exact ih hrest R hR' x hx' hid

/-- `list_index` misses exactly when no element carries the probe's id. -/
theorem list_index_eq_none (m : Message) :
    ∀ l : List Message, (∀ x ∈ l, x.id ≠ m.id) → list_index l m = none := by
  intro l
  induction l with
  | nil => intro _; rfl
  | cons a rest ih =>
      intro h
      have ha : a.id ≠ m.id := h a (List.mem_cons_self a rest)
      simp only [list_index, if_neg ha]
      rw [ih (fun x hx => h x (List.mem_cons_of_mem a hx))]
      rfl

/-- With pairwise-distinct ids, `list_index` locates the probe itself, and the
take through that index ends exactly at the probe. -/
theorem list_index_spec (m : Message) :
    ∀ l : List Message, m ∈ l → (l.map Message.id).Nodup →
      ∃ i, list_index l m = some i ∧ ∃ t, l.take (i + 1) = t ++ [m] := by
  intro l
  induction l with
  | nil => intro hm; exact absurd hm (List.not_mem_nil m)
  | cons a rest ih =>
      intro hm hnd
      rw [List.map_cons, List.nodup_cons] at hnd
      obtain ⟨ha, hrest⟩ := hnd
      by_cases hid : a.id = m.id
      · have ham : a = m := by
          rcases List.mem_cons.mp hm with rfl | hm'
          · rfl
          · have hmem : m.id ∈ rest.map Message.id :=
              List.mem_map_of_mem Message.id hm'
            rw [← hid] at hmem
            exact absurd hmem ha
        refine ⟨0, ?_, ⟨[], ?_⟩⟩
        · simp [list_index, hid]
        · rw [List.take_succ_cons, List.take_zero, ham]
          rfl
      · have hm' : m ∈ rest := by
          rcases List.mem_cons.mp hm with rfl | hm'
          · exact absurd rfl hid
          · exact hm'
        obtain ⟨i, hi, t, ht⟩ := ih hm' hrest
        refine ⟨i + 1, ?_, ⟨a :: t, ?_⟩⟩
        · simp [list_index, hid, hi]
        · rw [List.take_succ_cons, ht]
          rfl

/-- C3: `get_conversation_history_for_api` returns the prefix of the owning
conversation's active messages ending at and including the given message when
it occurs there — in particular a non-empty sequence whose last element is the
message — and falls back to the full active sequence when the message is not in
the active set. -/
theorem history_up_to_spec (conv : Conversation) (m : Message)
    (hnd : ((get_active_messages conv).map Message.id).Nodup) :
    (m ∈ get_active_messages conv →
      get_conversation_history_for_api m conv ≠ [] ∧
      (get_conversation_history_for_api m conv).getLast? = some m ∧
      ∃ rest, get_active_messages conv =
        get_conversation_history_for_api m conv ++ rest) ∧
    ((∀ x ∈ get_active_messages conv, x.id ≠ m.id) →
      get_conversation_history_for_api m conv = get_active_messages conv) := by
  constructor
  · intro hm
    obtain ⟨i, hi, t, ht⟩ := list_index_spec m (get_active_messages conv) hm hnd
    have hh : get_conversation_history_for_api m conv =
        (get_active_messages conv).take (i + 1) := by
      simp [get_conversation_history_for_api, hi]
    rw [hh, ht]
    refine ⟨by simp, by simp, ⟨(get_active_messages conv).drop (i + 1), ?_⟩⟩
    rw [← ht, List.take_append_drop]
  · intro hx
    have hnone := list_index_eq_none m (get_active_messages conv) hx
    simp [get_conversation_history_for_api, hnone]

/-- Witness for C3 at a concrete active message. -/
theorem history_up_to_spec_witness :
    ((get_active_messages sampleConv).map Message.id).Nodup ∧
    sampleReply ∈ get_active_messages sampleConv ∧
    (get_conversation_history_for_api sampleReply sampleConv ≠ [] ∧
      (get_conversation_history_for_api sampleReply sampleConv).getLast? =
        some sampleReply ∧
      ∃ rest, get_active_messages sampleConv =
        get_conversation_history_for_api sampleReply sampleConv ++ rest) :=
  ⟨by decide, by decide,
    (history_up_to_spec sampleConv sampleReply (by decide)).1 (by decide)⟩

/-- `filter(...).first()` on a queryset whose filter result is a singleton
returns that element. -/
theorem find?_of_filter_singleton {α : Type} (p : α → Bool) :
    ∀ (l : List α) (a : α), l.filter p = [a] → l.find? p = some a := by
  intro l
  induction l with
  | nil =>
      intro a h
      exact absurd h (by simp)
  | cons x rest ih =>
      intro a h
      by_cases hx : p x
      · rw [List.filter_cons_of_pos hx] at h
        obtain ⟨rfl, -⟩ := List.cons.injEq x (rest.filter p) a [] ▸ h
        exact List.find?_cons_of_pos rest hx
      · rw [List.filter_cons_of_neg hx] at h
        rw [List.find?_cons_of_neg rest hx]
        exact ih a h

/-- Updating the one message carrying R's id removes every match of an
active-reply style predicate that only R satisfied, when the replacement does
not satisfy it. -/
theorem filter_map_update_nil (p : Message → Bool) (R r' : Message)
    (hpr : p r' = false) (l : List Message)
    (h2 : ∀ x ∈ l, p x = true → x = R) :
    (l.map (fun x => if x.id = R.id then r' else x)).filter p = [] := by
  rw [List.filter_eq_nil_iff]
  intro y hy
  obtain ⟨x, hx, rfl⟩ := List.mem_map.mp hy
  by_cases hid : x.id = R.id
  · rw [if_pos hid]
    simp [hpr]
  · rw [if_neg hid]
    intro hpx
    exact hid (by rw [h2 x hx hpx])

/-- C1: regenerating against a user message whose unique prior active
assistant reply is R creates a new assistant message N with
`parent_user_message = m`, sets `R.superseded = true` and `R.replaced_by = N`,
and afterwards the conversation's active messages contain exactly one
assistant reply for m — N, and no longer R — while `active_messages` never
includes a superseded message. -/
theorem regenerate_reply_spec (conv : Conversation) (m R : Message)
    (ai_response : String) (new_id now : Nat)
    (_hrole : m.role = "user")
    (hresp : ai_response ≠ "")
    (_hnd : (conv.messages.map Message.id).Nodup)
    (hfresh : new_id ∉ conv.messages.map Message.id)
    (hR : conv.messages.filter (active_reply_pred m.id) = [R]) :
    new_assistant_message m.id ai_response new_id now ∈
      (regenerate_reply conv m ai_response new_id now).messages ∧
    (∃ R' ∈ (regenerate_reply conv m ai_response new_id now).messages,
      R'.id = R.id ∧ R'.superseded = true ∧ R'.replaced_by = some new_id) ∧
    (get_active_messages (regenerate_reply conv m ai_response new_id now)).filter
        (fun x => x.role == "assistant" && x.parent_user_message == some m.id) =
      [new_assistant_message m.id ai_response new_id now] ∧
    R ∉ get_active_messages (regenerate_reply conv m ai_response new_id now) ∧
    ∀ x ∈ get_active_messages (regenerate_reply conv m ai_response new_id now),
      x.superseded = false := by
  have hRmem : R ∈ conv.messages.filter (active_reply_pred m.id) := by
    rw [hR]
    exact List.mem_singleton_self R
  have hRin : R ∈ conv.messages := (List.mem_filter.mp hRmem).1
  have hRpred : active_reply_pred m.id R = true := (List.mem_filter.mp hRmem).2
  have hRfacts : R.parent_user_message = some m.id ∧ R.role = "assistant" ∧
      R.superseded = false := by
    simpa [active_reply_pred, and_assoc] using hRpred
  obtain ⟨hRparent, hRrole, hRsup⟩ := hRfacts
  have hfind : conv.messages.find? (active_reply_pred m.id) = some R :=
    find?_of_filter_singleton _ conv.messages R hR
  have hRidmem : R.id ∈ conv.messages.map Message.id :=
    List.mem_map_of_mem Message.id hRin
  have hNR : (new_assistant_message m.id ai_response new_id now).id ≠ R.id := by
    intro h
    apply hfresh
    have hcopy := hRidmem
    rw [← h] at hcopy
    exact hcopy
  have hsup : supersede_with_new_reply R new_id =
      Except.ok { R with superseded := true, replaced_by := some new_id } := by
    simp [supersede_with_new_reply, hRrole]
  have hmsgs : (regenerate_reply conv m ai_response new_id now).messages =
      conv.messages.map
          (fun x => if x.id = R.id then
            { R with superseded := true, replaced_by := some new_id } else x) ++
        [new_assistant_message m.id ai_response new_id now] := by
    simp only [regenerate_reply, hfind, hsup, if_neg hresp]
    rw [List.map_append]
    simp only [List.map_cons, List.map_nil]
    rw [if_neg hNR]
  have h2 : ∀ x ∈ conv.messages, active_reply_pred m.id x = true → x = R := by
    intro x hx hpx
    have hxf : x ∈ conv.messages.filter (active_reply_pred m.id) :=
      List.mem_filter.mpr ⟨hx, hpx⟩
    rw [hR] at hxf
    exact List.eq_of_mem_singleton hxf
  have hact : get_active_messages (regenerate_reply conv m ai_response new_id now) =
      (conv.messages.map
          (fun x => if x.id = R.id then
            { R with superseded := true, replaced_by := some new_id } else x) ++
        [new_assistant_message m.id ai_response new_id now]).filter
        (fun x => !x.superseded) := by
    rw [get_active_messages, hmsgs]
  have hfilter3 :
      (get_active_messages (regenerate_reply conv m ai_response new_id now)).filter
        (fun x => x.role == "assistant" && x.parent_user_message == some m.id) =
      [new_assistant_message m.id ai_response new_id now] := by
    rw [hact, List.filter_filter, List.filter_append]
    have hnil := filter_map_update_nil
      (fun x => (x.role == "assistant" && x.parent_user_message == some m.id)
        && !x.superseded)
      R { R with superseded := true, replaced_by := some new_id }
      (by simp) conv.messages
      (by
        intro x hx hq
        simp only [Bool.and_eq_true, beq_iff_eq] at hq
        apply h2 x hx
        simp only [active_reply_pred, Bool.and_eq_true, beq_iff_eq]
        exact ⟨⟨hq.1.2, hq.1.1⟩, hq.2⟩)
    rw [hnil]
    simp [new_assistant_message]
  refine ⟨?_, ?_, hfilter3, ?_, ?_⟩
  · rw [hmsgs]
    exact List.mem_append_right _ (List.mem_singleton_self _)
  · refine ⟨{ R with superseded := true, replaced_by := some new_id }, ?_, rfl, rfl, rfl⟩
    rw [hmsgs]
    apply List.mem_append_left
    have hmem := List.mem_map_of_mem
      (fun x => if x.id = R.id then
        { R with superseded := true, replaced_by := some new_id } else x) hRin
    simpa using hmem
  · intro hRact
    have hRq : R ∈ (get_active_messages
        (regenerate_reply conv m ai_response new_id now)).filter
        (fun x => x.role == "assistant" && x.parent_user_message == some m.id) :=
      List.mem_filter.mpr ⟨hRact, by simp [hRrole, hRparent]⟩
    rw [hfilter3] at hRq
    have hRN : R = new_assistant_message m.id ai_response new_id now :=
      List.eq_of_mem_singleton hRq
    rw [hRN] at hRidmem
    exact hfresh hRidmem
  · intro x hx
    rw [hact] at hx
    have := (List.mem_filter.mp hx).2
    simpa using this

/-- Witness for C1 at a concrete conversation with one user message and one
active assistant reply. -/
theorem regenerate_reply_spec_witness :
    (sampleUser.role = "user" ∧ ("Updated response" : String) ≠ "" ∧
      (sampleConv.messages.map Message.id).Nodup ∧
      3 ∉ sampleConv.messages.map Message.id ∧
      sampleConv.messages.filter (active_reply_pred sampleUser.id) = [sampleReply]) ∧
    (new_assistant_message sampleUser.id "Updated response" 3 2 ∈
      (regenerate_reply sampleConv sampleUser "Updated response" 3 2).messages ∧
    (∃ R' ∈ (regenerate_reply sampleConv sampleUser "Updated response" 3 2).messages,
      R'.id = sampleReply.id ∧ R'.superseded = true ∧ R'.replaced_by = some 3) ∧
    (get_active_messages (regenerate_reply sampleConv sampleUser "Updated response" 3 2)).filter
        (fun x => x.role == "assistant" && x.parent_user_message == some sampleUser.id) =
      [new_assistant_message sampleUser.id "Updated response" 3 2] ∧
    sampleReply ∉ get_active_messages
      (regenerate_reply sampleConv sampleUser "Updated response" 3 2) ∧
    ∀ x ∈ get_active_messages
        (regenerate_reply sampleConv sampleUser "Updated response" 3 2),
      x.superseded = false) :=
  ⟨⟨by decide, by decide, by decide, by decide, by decide⟩,
    regenerate_reply_spec sampleConv sampleUser sampleReply "Updated response" 3 2
      (by decide) (by decide) (by decide) (by decide) (by decide)⟩
